import Mathlib

/-!
Verification of the session-and-rendering engine of `kitty_tty.c`
(bare-metal DRM terminal emulator) against its specification.

The C source is shallowly embedded: pure computations become Lean
functions on `Nat`/`Int`; the fallible spawn of a child process becomes
a `Bool` oracle parameter; the frame-buffer writes of the renderer are
modelled as explicit lists of (row, column, value) pixel writes; the
application state (`g_app`) becomes a record manipulated functionally.
-/

namespace KittyTty

/- -- Helpers (rgb_pack, channel extraction, alpha blending) -------- -/

/-- `rgb_pack` from the source: `((uint32_t)r << 16) | ((uint32_t)g << 8) | b`. -/
def rgb_pack (r g b : Nat) : Nat :=
  (r <<< 16) ||| (g <<< 8) ||| b

/-- Red channel of a packed `0x00RRGGBB` colour: `(c >> 16) & 0xFF`. -/
def chan_r (c : Nat) : Nat := (c >>> 16) &&& 0xFF

/-- Green channel: `(c >> 8) & 0xFF`. -/
def chan_g (c : Nat) : Nat := (c >>> 8) &&& 0xFF

/-- Blue channel: `c & 0xFF`. -/
def chan_b (c : Nat) : Nat := c &&& 0xFF

/-- One channel of the glyph blend as the source computes it:
`(fg * a + bg * (255 - a)) / 255` with C integer (truncating) division. -/
def blend_channel (fg bg a : Nat) : Nat :=
  (fg * a + bg * (255 - a)) / 255

/-- Modelled from the spec: the per-channel value the specification demands,
`round((fg*a + bg*(255-a))/255)`, i.e. division rounded to the nearest
integer (`round(x/255) = (2*x + 255) / 510` for integer `x`). -/
def spec_round_channel (fg bg a : Nat) : Nat :=
  (2 * (fg * a + bg * (255 - a)) + 255) / 510

/- -- write_all ---------------------------------------------------- -/

/-- `MAX_EAGAIN_RETRIES` from the source. -/
def MAX_EAGAIN_RETRIES : Nat := 50

/-- The timeout in milliseconds passed to `poll` while waiting for
writability after `EAGAIN` (literal `100` in `write_all`). -/
def EAGAIN_POLL_MS : Nat := 100

/-- Outcome of one `write(2)` call on the pty master, as seen by
`write_all`: a successful (possibly partial) write of `n` bytes, an
`EINTR`, an `EAGAIN`, or any other error. -/
inductive WriteOutcome where
  | ok (n : Nat)
  | eintr
  | eagain
  | othererr
  deriving Repr, DecidableEq

/-- The loop of `write_all(fd, buf, len)`, driven by a script of write
outcomes and carrying the running `eagain_count`.  Returns `some 0` on
success, `some (-1)` on surrender/error, `none` if the script is
exhausted with bytes still unwritten. -/
def write_all : List WriteOutcome → Nat → Nat → Option Int
  | _, 0, _ => some 0
  | [], _ + 1, _ => none
  | .ok n :: rest, len + 1, _ => write_all rest (len + 1 - n) 0
  | .eintr :: rest, len + 1, cnt => write_all rest (len + 1) cnt
  | .eagain :: rest, len + 1, cnt =>
      if cnt + 1 > MAX_EAGAIN_RETRIES then some (-1)
      else write_all rest (len + 1) (cnt + 1)
  | .othererr :: _, _ + 1, _ => some (-1)

/-- Total number of bytes the script reports as successfully written. -/
def written_sum : List WriteOutcome → Nat
  | [] => 0
  | .ok n :: rest => n + written_sum rest
  | _ :: rest => written_sum rest

theorem write_all_ok_needs_all_bytes (outs : List WriteOutcome) :
    ∀ len cnt, write_all outs len cnt = some 0 → len ≤ written_sum outs := by
  induction outs with
  | nil =>
      intro len cnt h
      cases len with
      | zero => exact Nat.zero_le _
      | succ m => simp [write_all] at h
  | cons o rest ih =>
      intro len cnt h
      cases len with
      | zero => exact Nat.zero_le _
      | succ m =>
          cases o with
          | ok n =>
              have h2 := ih (m + 1 - n) 0 h
              simp only [written_sum]
              omega
          | eintr =>
              have h2 := ih (m + 1) cnt h
              simp only [written_sum]
              omega
          | eagain =>
              simp only [write_all] at h
              split at h
              · simp at h
              · have h2 := ih (m + 1) (cnt + 1) h
                simp only [written_sum]
                omega
          | othererr => simp [write_all] at h

theorem write_all_eagain_run (rest : List WriteOutcome) :
    ∀ k len cnt, 0 < len → 0 < k → cnt + k = MAX_EAGAIN_RETRIES + 1 →
    write_all (List.replicate k .eagain ++ rest) len cnt = some (-1) := by
  intro k
  induction k with
  | zero => intro len cnt _ hk _; omega
  | succ j ih =>
      intro len cnt hlen _ hc
      obtain ⟨m, rfl⟩ : ∃ m, len = m + 1 := ⟨len - 1, by omega⟩
      by_cases hbig : cnt + 1 > MAX_EAGAIN_RETRIES
      · simp [List.replicate_succ, write_all, hbig]
      · simp only [List.replicate_succ, List.cons_append, write_all, hbig,
          if_false, reduceIte]
        exact ih (m + 1) (cnt + 1) (by omega) (by omega) (by omega)

/-- C4: `write_all` returns 0 only after all `len` bytes were written; it
retries immediately on EINTR; on EAGAIN it polls for writability with a
100 ms timeout and resumes; it surrenders (returns -1) once more than 50
consecutive EAGAINs occur, the consecutive count being reset to 0 by
every successful partial write; and it returns -1 on any other error. -/
theorem write_all_spec (outs rest : List WriteOutcome) (len n cnt : Nat)
    (hlen : 0 < len) :
    (write_all outs len 0 = some 0 → len ≤ written_sum outs) ∧
    write_all (.eintr :: rest) len cnt = write_all rest len cnt ∧
    (cnt < MAX_EAGAIN_RETRIES →
      write_all (.eagain :: rest) len cnt = write_all rest len (cnt + 1)) ∧
    EAGAIN_POLL_MS = 100 ∧
    write_all (List.replicate (MAX_EAGAIN_RETRIES + 1) .eagain ++ rest) len 0
      = some (-1) ∧
    write_all (.ok n :: rest) len cnt = write_all rest (len - n) 0 ∧
    write_all (.othererr :: rest) len cnt = some (-1) := by
  obtain ⟨m, rfl⟩ : ∃ m, len = m + 1 := ⟨len - 1, by omega⟩
  refine ⟨write_all_ok_needs_all_bytes outs _ 0, rfl, ?_, rfl, ?_, rfl, rfl⟩
  · intro hcnt
    have : ¬ (cnt + 1 > MAX_EAGAIN_RETRIES) := by omega
    simp [write_all, this]
  · exact write_all_eagain_run rest (MAX_EAGAIN_RETRIES + 1) (m + 1) 0 (by omega)
      (by omega) rfl

/-- Witness for `write_all_spec` at a concrete script and `len = 3`. -/
theorem write_all_spec_witness :
    (0 : Nat) < 3 ∧
    ((write_all [.ok 1, .eintr, .ok 2] 3 0 = some 0 →
        3 ≤ written_sum [.ok 1, .eintr, .ok 2]) ∧
      write_all (.eintr :: [.ok 3]) 3 2 = write_all [.ok 3] 3 2 ∧
      (2 < MAX_EAGAIN_RETRIES →
        write_all (.eagain :: [.ok 3]) 3 2 = write_all [.ok 3] 3 3) ∧
      EAGAIN_POLL_MS = 100 ∧
      write_all (List.replicate (MAX_EAGAIN_RETRIES + 1) .eagain ++ [.ok 3]) 3 0
        = some (-1) ∧
      write_all (.ok 1 :: [.ok 3]) 3 2 = write_all [.ok 3] (3 - 1) 0 ∧
      write_all (.othererr :: [.ok 3]) 3 2 = some (-1)) :=
  ⟨by decide, write_all_spec [.ok 1, .eintr, .ok 2] [.ok 3] 3 1 2 (by decide)⟩

/- -- Glyph blitting and cell filling ------------------------------ -/

/-- An 8-bit coverage bitmap as FreeType hands it to `draw_glyph`:
`rows × width` coverage values addressed as `buffer[row * pitch + col]`. -/
structure GlyphBitmap where
  rows : Nat
  width : Nat
  pitch : Nat
  buffer : Nat → Nat

/-- The pixel writes performed by `draw_glyph`: for each bitmap position,
the screen position `(sy, sx) = (pen_y + row, pen_x + col)` is skipped if
off screen or if the coverage is 0; otherwise the blended packed colour
is stored.  Each list entry is `(sy, sx, value)`. -/
def draw_glyph (bmp : GlyphBitmap) (scr_w scr_h : Nat) (pen_x pen_y : Int)
    (fg_color bg_color : Nat) : List (Nat × Nat × Nat) :=
  (List.range bmp.rows).flatMap fun row =>
    let sy : Int := pen_y + row
    if sy < 0 ∨ (scr_h : Int) ≤ sy then []
    else
      (List.range bmp.width).filterMap fun (col : Nat) =>
        let sx : Int := pen_x + col
        if sx < 0 ∨ (scr_w : Int) ≤ sx then none
        else
          let a := bmp.buffer (row * bmp.pitch + col)
          if a = 0 then none
          else some (sy.toNat, sx.toNat,
            rgb_pack (blend_channel (chan_r fg_color) (chan_r bg_color) a)
              (blend_channel (chan_g fg_color) (chan_g bg_color) a)
              (blend_channel (chan_b fg_color) (chan_b bg_color) a))

/-- The pixel writes performed by `fill_cell_bg`: a `w × h` rectangle at
`(x, y)` clipped to the screen, every surviving pixel set to `color`.
Each list entry is `(sy, sx, color)`. -/
def fill_cell_bg (sw sh : Nat) (x y : Int) (w h : Nat) (color : Nat) :
    List (Nat × Nat × Nat) :=
  (List.range h).flatMap fun r =>
    let sy : Int := y + r
    if sy < 0 ∨ (sh : Int) ≤ sy then []
    else
      (List.range w).filterMap fun (c : Nat) =>
        let sx : Int := x + c
        if 0 ≤ sx ∧ sx < (sw : Int) then some (sy.toNat, sx.toNat, color)
        else none

/-- Byte offset of channel byte `k` of pixel `(sy, sx)` in a buffer with
the given stride: `fb + sy * stride` is the row base and the pixel is a
32-bit word at index `sx` (`fb_row[sx]` / `row[sx]` in the source). -/
def pixel_byte_offset (stride sy sx k : Nat) : Nat :=
  sy * stride + 4 * sx + k

/-- The swap at the end of `render_screen`:
`memcpy(framebuffer, back_buffer, size)` — byte `i` of the scan-out
buffer becomes byte `i` of the shadow for `i < size`. -/
def swap_buffers (back scanout : Nat → Nat) (size : Nat) : Nat → Nat :=
  fun i => if i < size then back i else scanout i

theorem draw_glyph_mem_bounds {bmp : GlyphBitmap} {sw sh : Nat}
    {pen_x pen_y : Int} {fg bg : Nat} {e : Nat × Nat × Nat}
    (he : e ∈ draw_glyph bmp sw sh pen_x pen_y fg bg) :
    e.1 < sh ∧ e.2.1 < sw := by
  simp only [draw_glyph, List.mem_flatMap, List.mem_range] at he
  obtain ⟨row, _, hrow⟩ := he
  split at hrow
  · simp at hrow
  · next hy =>
      push_neg at hy
      simp only [List.mem_filterMap, List.mem_range] at hrow
      obtain ⟨col, _, hcol⟩ := hrow
      split at hcol
      · simp at hcol
      · next hx =>
          push_neg at hx
          split at hcol
          · simp at hcol
          · obtain ⟨rfl⟩ := Option.some_injective _ hcol
            refine ⟨?_, ?_⟩ <;> simp only [] <;> omega

theorem fill_cell_bg_mem_bounds {sw sh : Nat} {x y : Int} {w h color : Nat}
    {e : Nat × Nat × Nat} (he : e ∈ fill_cell_bg sw sh x y w h color) :
    e.1 < sh ∧ e.2.1 < sw := by
  simp only [fill_cell_bg, List.mem_flatMap, List.mem_range] at he
  obtain ⟨r, _, hr⟩ := he
  split at hr
  · simp at hr
  · next hy =>
      push_neg at hy
      simp only [List.mem_filterMap, List.mem_range] at hr
      obtain ⟨c, _, hc⟩ := hr
      split at hc
      · next hx =>
          obtain ⟨rfl⟩ := Option.some_injective _ hc
          refine ⟨?_, ?_⟩ <;> simp only [] <;> omega
      · simp at hc

theorem offset_lt_size {stride size sw sh sy sx k : Nat}
    (hstride : 4 * sw ≤ stride) (hsize : stride * sh ≤ size)
    (hy : sy < sh) (hx : sx < sw) (hk : k < 4) :
    pixel_byte_offset stride sy sx k < size := by
  have h1 : 4 * sx + k < stride := by omega
  have h2 : sy * stride + stride ≤ sh * stride := by
    calc sy * stride + stride = (sy + 1) * stride := by ring
    _ ≤ sh * stride := Nat.mul_le_mul_right _ (by omega)
  have h3 : sh * stride ≤ size := by rw [Nat.mul_comm]; exact hsize
  simp only [pixel_byte_offset]
  omega

/-- C2: every byte a render writes lands strictly inside the shadow
buffer — `fill_cell_bg` and `draw_glyph` clip every pixel to
`0 ≤ sx < width` and `0 ≤ sy < height` and address rows by the stride, so
all four bytes of every written pixel have offset `< size` whenever
`4·width ≤ stride` and `stride·height ≤ size`; and the final swap of
`render_screen` copies exactly `size` bytes, making the scan-out buffer
byte-identical to the shadow on `[0, size)`. -/
theorem render_writes_in_bounds (stride size sw sh : Nat)
    (bmp : GlyphBitmap) (gx gy x y : Int) (w h fg bg color : Nat)
    (back scanout : Nat → Nat)
    (hstride : 4 * sw ≤ stride) (hsize : stride * sh ≤ size) :
    (∀ e ∈ draw_glyph bmp sw sh gx gy fg bg, ∀ k < 4,
        pixel_byte_offset stride e.1 e.2.1 k < size) ∧
    (∀ e ∈ fill_cell_bg sw sh x y w h color, ∀ k < 4,
        pixel_byte_offset stride e.1 e.2.1 k < size) ∧
    (∀ i < size, swap_buffers back scanout size i = back i) := by
  refine ⟨?_, ?_, ?_⟩
  · intro e he k hk
    obtain ⟨h1, h2⟩ := draw_glyph_mem_bounds he
    exact offset_lt_size hstride hsize h1 h2 hk
  · intro e he k hk
    obtain ⟨h1, h2⟩ := fill_cell_bg_mem_bounds he
    exact offset_lt_size hstride hsize h1 h2 hk
  · intro i hi
    simp [swap_buffers, hi]

/-- Witness for `render_writes_in_bounds` on a 4×4 screen with stride 16. -/
theorem render_writes_in_bounds_witness :
    4 * 4 ≤ 16 ∧ 16 * 4 ≤ 64 ∧
    ((∀ e ∈ draw_glyph ⟨1, 1, 1, fun _ => 200⟩ 4 4 0 0 0xFFFFFF 0, ∀ k < 4,
        pixel_byte_offset 16 e.1 e.2.1 k < 64) ∧
      (∀ e ∈ fill_cell_bg 4 4 0 0 2 2 7, ∀ k < 4,
        pixel_byte_offset 16 e.1 e.2.1 k < 64) ∧
      (∀ i < 64, swap_buffers (fun _ => 1) (fun _ => 2) 64 i = (fun _ => 1) i)) :=
  ⟨by decide, by decide,
    render_writes_in_bounds 16 64 4 4 ⟨1, 1, 1, fun _ => 200⟩ 0 0 0 0 2 2
      0xFFFFFF 0 7 (fun _ => 1) (fun _ => 2) (by decide) (by decide)⟩

theorem mem_draw_glyph {bmp : GlyphBitmap} {sw sh : Nat} {px py : Int}
    {fg bg : Nat} {e : Nat × Nat × Nat}
    (he : e ∈ draw_glyph bmp sw sh px py fg bg) :
    ∃ row col, row < bmp.rows ∧ col < bmp.width ∧
      0 ≤ py + (row : Int) ∧ py + (row : Int) < sh ∧
      0 ≤ px + (col : Int) ∧ px + (col : Int) < sw ∧
      bmp.buffer (row * bmp.pitch + col) ≠ 0 ∧
      e = ((py + (row : Int)).toNat, (px + (col : Int)).toNat,
        rgb_pack
          (blend_channel (chan_r fg) (chan_r bg) (bmp.buffer (row * bmp.pitch + col)))
          (blend_channel (chan_g fg) (chan_g bg) (bmp.buffer (row * bmp.pitch + col)))
          (blend_channel (chan_b fg) (chan_b bg) (bmp.buffer (row * bmp.pitch + col)))) := by
  simp only [draw_glyph, List.mem_flatMap, List.mem_range] at he
  obtain ⟨row, hrowlt, hrow⟩ := he
  split at hrow
  · simp at hrow
  · next hy =>
      push_neg at hy
      simp only [List.mem_filterMap, List.mem_range] at hrow
      obtain ⟨col, hcollt, hcol⟩ := hrow
      split at hcol
      · simp at hcol
      · next hx =>
          push_neg at hx
          split at hcol
          · simp at hcol
          · next ha =>
              obtain ⟨rfl⟩ := Option.some_injective _ hcol
              exact ⟨row, col, hrowlt, hcollt, by omega, by omega, by omega,
                by omega, ha, rfl⟩

/-- C3 (amended): for every glyph blit and every destination pixel with
coverage `a`: if `a = 0` the pixel is not written at all, and if `a > 0`
each written channel equals `(fg*a + bg*(255-a)) / 255` with truncating
(floor) integer division — not rounding to nearest. -/
theorem draw_glyph_blend_floor (bmp : GlyphBitmap) (sw sh : Nat)
    (px py : Int) (fg bg : Nat) :
    (∀ e ∈ draw_glyph bmp sw sh px py fg bg,
      ∃ row col, row < bmp.rows ∧ col < bmp.width ∧
        bmp.buffer (row * bmp.pitch + col) ≠ 0 ∧
        e = ((py + (row : Int)).toNat, (px + (col : Int)).toNat,
          rgb_pack
            (blend_channel (chan_r fg) (chan_r bg) (bmp.buffer (row * bmp.pitch + col)))
            (blend_channel (chan_g fg) (chan_g bg) (bmp.buffer (row * bmp.pitch + col)))
            (blend_channel (chan_b fg) (chan_b bg) (bmp.buffer (row * bmp.pitch + col))))) ∧
    (∀ row col, row < bmp.rows → col < bmp.width →
      0 ≤ py + (row : Int) → py + (row : Int) < sh →
      0 ≤ px + (col : Int) → px + (col : Int) < sw →
      bmp.buffer (row * bmp.pitch + col) = 0 →
      ∀ v, ((py + (row : Int)).toNat, (px + (col : Int)).toNat, v)
        ∉ draw_glyph bmp sw sh px py fg bg) := by
  constructor
  · intro e he
    obtain ⟨row, col, h1, h2, _, _, _, _, h7, h8⟩ := mem_draw_glyph he
    exact ⟨row, col, h1, h2, h7, h8⟩
  · intro row col _ _ hy0 _ hx0 _ hzero v hmem
    obtain ⟨row2, col2, _, _, hy0b, _, hx0b, _, hnz, heq⟩ := mem_draw_glyph hmem
    have h1 : (py + (row : Int)).toNat = (py + (row2 : Int)).toNat := by
      have := congrArg Prod.fst heq
      simpa using this
    have h2 : (px + (col : Int)).toNat = (px + (col2 : Int)).toNat := by
      have := congrArg (fun t => t.2.1) heq
      simpa using this
    have hr : row = row2 := by omega
    have hc : col = col2 := by omega
    rw [hr, hc] at hzero
    exact hnz hzero

/-- Witness for `draw_glyph_blend_floor`: a concrete 1×1 bitmap with
coverage 200 produces exactly one write, and the pixel of a 1×2 zero
bitmap row with coverage 0 is untouched. -/
theorem draw_glyph_blend_floor_witness :
    (∃ row col, row < 1 ∧ col < 1 ∧
      GlyphBitmap.buffer ⟨1, 1, 1, fun _ => 200⟩ (row * 1 + col) ≠ 0 ∧
      ((0, 0, rgb_pack (blend_channel 255 0 200) (blend_channel 255 0 200)
          (blend_channel 255 0 200)) : Nat × Nat × Nat)
        = (((0 : Int) + (row : Int)).toNat, ((0 : Int) + (col : Int)).toNat,
          rgb_pack
            (blend_channel (chan_r 0xFFFFFF) (chan_r 0)
              (GlyphBitmap.buffer ⟨1, 1, 1, fun _ => 200⟩ (row * 1 + col)))
            (blend_channel (chan_g 0xFFFFFF) (chan_g 0)
              (GlyphBitmap.buffer ⟨1, 1, 1, fun _ => 200⟩ (row * 1 + col)))
            (blend_channel (chan_b 0xFFFFFF) (chan_b 0)
              (GlyphBitmap.buffer ⟨1, 1, 1, fun _ => 200⟩ (row * 1 + col))))) ∧
    ((0, 0, (5 : Nat)) : Nat × Nat × Nat)
      ∉ draw_glyph ⟨1, 1, 1, fun _ => 0⟩ 4 4 0 0 0xFFFFFF 0 := by
  constructor
  · exact (draw_glyph_blend_floor ⟨1, 1, 1, fun _ => 200⟩ 4 4 0 0 0xFFFFFF 0).1
      (0, 0, rgb_pack (blend_channel 255 0 200) (blend_channel 255 0 200)
        (blend_channel 255 0 200)) (by decide)
  · exact (draw_glyph_blend_floor ⟨1, 1, 1, fun _ => 0⟩ 4 4 0 0 0xFFFFFF 0).2
      0 0 (by decide) (by decide) (by decide) (by decide) (by decide) (by decide)
      rfl 5

/-- C3 counterexample: with coverage `a = 128`, foreground `0x010101` and
background `0x000000`, `draw_glyph` writes the pixel value 0 (each channel
`(1*128 + 0*127)/255 = 0` by truncation), while the specified
round-to-nearest blend demands channel value 1. -/
theorem draw_glyph_round_cex :
    draw_glyph ⟨1, 1, 1, fun _ => 128⟩ 4 4 0 0 0x010101 0x000000
      = [(0, 0, 0)] ∧
    chan_b 0 = 0 ∧
    spec_round_channel (chan_b 0x010101) (chan_b 0x000000) 128 = 1 ∧
    chan_b 0 ≠ spec_round_channel (chan_b 0x010101) (chan_b 0x000000) 128 := by
  refine ⟨by decide, by decide, by decide, by decide⟩

/- -- Tab / pane sessions ------------------------------------------ -/

/-- `MAX_TABS` from the source. -/
def MAX_TABS : Nat := 8

/-- `MAX_PANES` from the source. -/
def MAX_PANES : Nat := 2

/-- Model of `PaneSession`: `masterOpen` stands for `master_fd >= 0`,
`vtAlive` for `vt != NULL`; the libvterm emulator is abstracted to its
size (`emu_rows`, `emu_cols`), its cursor position, and the log `fed` of
bytes pushed into it; `written` logs bytes written to the master. -/
structure PaneSession where
  masterOpen : Bool
  term_cols : Nat
  start_col : Nat
  vtAlive : Bool
  emu_rows : Nat
  emu_cols : Nat
  cursor_row : Nat
  cursor_col : Nat
  fed : List Nat
  written : List Nat
  deriving Repr, DecidableEq

/-- A `PaneSession` after `memset(pane, 0, sizeof(*pane))` with
`master_fd = -1`, `child_pid = -1`. -/
def zeroPane : PaneSession :=
  { masterOpen := false, term_cols := 0, start_col := 0, vtAlive := false,
    emu_rows := 0, emu_cols := 0, cursor_row := 0, cursor_col := 0,
    fed := [], written := [] }

/-- `pane_spawn(pane, rows, cols, start_col_px, ...)`.  The fallible part
(`vterm_new` / `forkpty`) is the oracle `ok`.  Returns the C result code
and the pane contents it leaves behind: on success a live pane; on
failure the zero-initialised pane with `term_cols`/`start_col` already
assigned and the emulator freed. -/
def pane_spawn (rows cols start_col_px : Nat) (ok : Bool) :
    Int × PaneSession :=
  let base := { zeroPane with term_cols := cols, start_col := start_col_px }
  if ok then
    (0, { base with masterOpen := true, vtAlive := true,
                    emu_rows := rows, emu_cols := cols })
  else (-1, base)

/-- Model of `TabSession`: the fixed two-slot pane array, the pane count,
active pane index, shared row count and the `active` flag. -/
structure TabSession where
  pane0 : PaneSession
  pane1 : PaneSession
  num_panes : Nat
  active_pane : Nat
  term_rows : Nat
  active : Bool
  deriving Repr, DecidableEq

/-- A `TabSession` after `memset(tab, 0, sizeof(*tab))`. -/
def zeroTab : TabSession :=
  { pane0 := zeroPane, pane1 := zeroPane, num_panes := 0, active_pane := 0,
    term_rows := 0, active := false }

/-- `tab->panes[p]` for `p < MAX_PANES`. -/
def paneAt (tab : TabSession) (p : Nat) : PaneSession :=
  if p = 0 then tab.pane0 else tab.pane1

/-- Store into `tab->panes[p]`. -/
def setPane (tab : TabSession) (p : Nat) (pa : PaneSession) : TabSession :=
  if p = 0 then { tab with pane0 := pa } else { tab with pane1 := pa }

/-- `tab_session_init(tab, hw, cfg)`: zero the tab, compute the grid from
the display size and the cell metrics, reject a too-small grid, then
spawn the single full-width pane.  Returns the C result code and the tab
slot contents it leaves behind. -/
def tab_session_init (width height cw ch : Nat) (ok : Bool) :
    Int × TabSession :=
  let total_cols : Int := (width / cw : Nat)
  let rows : Int := (height / ch : Nat) - 1
  if total_cols < 1 ∨ rows < 1 then (-1, zeroTab)
  else
    let tab := { zeroTab with term_rows := rows.toNat, num_panes := 1,
                              active_pane := 0 }
    let r := pane_spawn rows.toNat total_cols.toNat 0 ok
    if r.1 = 0 then (0, { tab with pane0 := r.2, active := true })
    else (-1, { tab with pane0 := r.2 })

/-- `split_pane_vertical(tab, hw, cfg)`: reject when already at
`MAX_PANES` or when either half would have fewer than 2 columns; shrink
pane 0 (emulator and window size) to the left half, spawn pane 1 on the
right half; on spawn failure restore pane 0's column count and emulator
size.  Returns the C result code and the resulting tab. -/
def split_pane_vertical (tab : TabSession) (cw : Nat) (ok : Bool) :
    Int × TabSession :=
  if tab.num_panes ≥ MAX_PANES then (-1, tab)
  else
    let old_cols := tab.pane0.term_cols
    let left_cols := old_cols / 2
    let right_cols := old_cols - left_cols
    if left_cols < 2 ∨ right_cols < 2 then (-1, tab)
    else
      let shrunk :=
        { tab.pane0 with term_cols := left_cols, emu_rows := tab.term_rows, emu_cols := left_cols }
      let tab1 := { tab with pane0 := shrunk }
      let right_start_px := left_cols * cw
      let r := pane_spawn tab.term_rows right_cols right_start_px ok
      if r.1 < 0 then
        let restored :=
          { shrunk with term_cols := old_cols, emu_rows := tab.term_rows, emu_cols := old_cols }
        (-1, { tab1 with pane0 := restored, pane1 := r.2 })
      else
        (0, { tab1 with pane1 := r.2, num_panes := 2, active_pane := 1 })

/-- Observational equality of tabs: all scalar fields agree and the panes
up to `num_panes` agree (slots at or beyond `num_panes` are dead storage
the rest of the program never consults). -/
def TabSession.obsEq (t u : TabSession) : Prop :=
  t.num_panes = u.num_panes ∧ t.active_pane = u.active_pane ∧
  t.term_rows = u.term_rows ∧ t.active = u.active ∧
  ∀ p < t.num_panes, paneAt t p = paneAt u p

/-- C1: the vertical split computes `left_cols = old_cols / 2` and
`right_cols = old_cols - left_cols`; it rejects without any mutation when
the tab already has two panes or when either side would have fewer than
2 columns; on success pane 0 shrinks to `left_cols`, pane 1 is spawned
with `right_cols` columns at pixel origin `left_cols * cw`, `num_panes`
becomes 2 and pane 1 becomes active; and when spawning pane 1 fails,
pane 0's column count and emulator size are restored, leaving the tab
observationally unchanged. -/
theorem split_pane_vertical_spec (tab : TabSession) (cw : Nat) (ok : Bool)
    (hemu : tab.pane0.emu_cols = tab.pane0.term_cols)
    (hrows : tab.pane0.emu_rows = tab.term_rows) :
    (2 ≤ tab.num_panes → split_pane_vertical tab cw ok = (-1, tab)) ∧
    (tab.num_panes = 1 →
      (tab.pane0.term_cols / 2 < 2 ∨
          tab.pane0.term_cols - tab.pane0.term_cols / 2 < 2 →
        split_pane_vertical tab cw ok = (-1, tab)) ∧
      (2 ≤ tab.pane0.term_cols / 2 →
        2 ≤ tab.pane0.term_cols - tab.pane0.term_cols / 2 →
        (ok = true →
          (split_pane_vertical tab cw ok).1 = 0 ∧
          (split_pane_vertical tab cw ok).2.pane0.term_cols
            = tab.pane0.term_cols / 2 ∧
          (split_pane_vertical tab cw ok).2.pane0.emu_cols
            = tab.pane0.term_cols / 2 ∧
          (split_pane_vertical tab cw ok).2.pane1.term_cols
            = tab.pane0.term_cols - tab.pane0.term_cols / 2 ∧
          (split_pane_vertical tab cw ok).2.pane1.start_col
            = tab.pane0.term_cols / 2 * cw ∧
          (split_pane_vertical tab cw ok).2.pane1.masterOpen = true ∧
          (split_pane_vertical tab cw ok).2.num_panes = 2 ∧
          (split_pane_vertical tab cw ok).2.active_pane = 1) ∧
        (ok = false →
          (split_pane_vertical tab cw ok).1 = -1 ∧
          (split_pane_vertical tab cw ok).2.pane0 = tab.pane0 ∧
          TabSession.obsEq (split_pane_vertical tab cw ok).2 tab))) := by
  constructor
  · intro h2
    have : tab.num_panes ≥ MAX_PANES := by simp [MAX_PANES]; omega
    simp [split_pane_vertical, this]
  · intro h1
    have hnp : ¬ tab.num_panes ≥ MAX_PANES := by simp [MAX_PANES]; omega
    constructor
    · intro hsmall
      simp [split_pane_vertical, hnp, hsmall]
    · intro hL hR
      have hbig : ¬ (tab.pane0.term_cols / 2 < 2 ∨
          tab.pane0.term_cols - tab.pane0.term_cols / 2 < 2) := by omega
      constructor
      · intro hok
        subst hok
        simp [split_pane_vertical, hnp, hbig, pane_spawn]
      · intro hok
        subst hok
        refine ⟨by simp [split_pane_vertical, hnp, hbig, pane_spawn], ?_, ?_⟩
        · simp [split_pane_vertical, hnp, hbig, pane_spawn]
          cases htp : tab.pane0 with
          | mk a b c d e f g h i j => simp_all
        · refine ⟨?_, ?_, ?_, ?_, ?_⟩ <;>
            simp [split_pane_vertical, hnp, hbig, pane_spawn, TabSession.obsEq]
          intro p hp
          have : p = 0 := by omega
          subst this
          simp [paneAt]
          cases htp : tab.pane0 with
          | mk a b c d e f g h i j => simp_all

/-- Witness for `split_pane_vertical_spec` on a live 8-column pane. -/
theorem split_pane_vertical_spec_witness :
    ((⟨⟨true, 8, 0, true, 10, 8, 0, 0, [], []⟩, zeroPane, 1, 0, 10, true⟩ :
        TabSession).pane0.emu_cols = 8 ∧
      (⟨⟨true, 8, 0, true, 10, 8, 0, 0, [], []⟩, zeroPane, 1, 0, 10, true⟩ :
        TabSession).pane0.emu_rows = 10) ∧
    (split_pane_vertical
        ⟨⟨true, 8, 0, true, 10, 8, 0, 0, [], []⟩, zeroPane, 1, 0, 10, true⟩
        5 true).1 = 0 ∧
    (split_pane_vertical
        ⟨⟨true, 8, 0, true, 10, 8, 0, 0, [], []⟩, zeroPane, 1, 0, 10, true⟩
        5 true).2.pane1.start_col = 20 := by
  have h := split_pane_vertical_spec
    ⟨⟨true, 8, 0, true, 10, 8, 0, 0, [], []⟩, zeroPane, 1, 0, 10, true⟩
    5 true rfl rfl
  have h2 := ((h.2 rfl).2 (by decide) (by decide)).1 rfl
  exact ⟨⟨rfl, rfl⟩, h2.1, by
    have := h2.2.2.2.2.1
    simpa using this⟩

/-- C6: single-pane tab creation computes `total_cols = width / cw` and
`rows = height / ch - 1` with integer division, fails without spawning
any pane when `total_cols < 1` or `rows < 1`, and on success creates
exactly one pane covering columns `[0, total_cols)` at pixel origin 0;
the resulting tab satisfies `term_rows * ch ≤ height - ch`. -/
theorem tab_session_init_spec (width height cw ch : Nat) (ok : Bool) :
    (((width / cw : Nat) : Int) < 1 ∨ ((height / ch : Nat) : Int) - 1 < 1 →
      tab_session_init width height cw ch ok = (-1, zeroTab)) ∧
    (1 ≤ ((width / cw : Nat) : Int) → 1 ≤ ((height / ch : Nat) : Int) - 1 →
      ok = true →
      (tab_session_init width height cw ch ok).1 = 0 ∧
      (tab_session_init width height cw ch ok).2.num_panes = 1 ∧
      (tab_session_init width height cw ch ok).2.active_pane = 0 ∧
      (tab_session_init width height cw ch ok).2.active = true ∧
      (tab_session_init width height cw ch ok).2.pane0.term_cols
        = width / cw ∧
      (tab_session_init width height cw ch ok).2.pane0.start_col = 0 ∧
      (tab_session_init width height cw ch ok).2.pane0.masterOpen = true ∧
      (tab_session_init width height cw ch ok).2.pane1.masterOpen = false ∧
      (tab_session_init width height cw ch ok).2.term_rows
        = height / ch - 1 ∧
      (tab_session_init width height cw ch ok).2.term_rows * ch
        ≤ height - ch) := by
  constructor
  · intro hsmall
    simp only [tab_session_init]
    rw [if_pos hsmall]
  · intro hcols hrows hok
    subst hok
    have hq : 2 ≤ height / ch := by omega
    have hnot : ¬ (((width / cw : Nat) : Int) < 1 ∨ ((height / ch : Nat) : Int) - 1 < 1) := by
      omega
    have htoN : (((height / ch : Nat) : Int) - 1).toNat = height / ch - 1 := by
      omega
    have harith : (height / ch - 1) * ch ≤ height - ch := by
      have h1 : height / ch * ch ≤ height := Nat.div_mul_le_self height ch
      have h2 : (height / ch - 1) * ch + ch = height / ch * ch := by
        calc (height / ch - 1) * ch + ch = (height / ch - 1 + 1) * ch := by ring
        _ = height / ch * ch := by congr 1; omega
      have h3 : ch ≤ height := by
        calc ch ≤ 2 * ch := by omega
        _ ≤ height / ch * ch := Nat.mul_le_mul_right _ hq
        _ ≤ height := h1
      omega
    simp only [tab_session_init]
    rw [if_neg hnot]
    simp [pane_spawn, zeroPane, zeroTab, htoN, harith, -Int.natCast_div]
    refine ⟨?_, ?_, ?_⟩
    · show ((width / cw : Nat) : Int).toNat = width / cw
      rw [Int.toNat_natCast]
    · show ((height / ch : Nat) : Int).toNat - 1 = height / ch - 1
      rw [Int.toNat_natCast]
    · show (((height / ch : Nat) : Int).toNat - 1) * ch ≤ height - ch
      rw [Int.toNat_natCast]
      exact harith

/-- Witness for `tab_session_init_spec` on a 40×30 display with 10×10
cells: 4 columns, 2 rows, one pane spawned. -/
theorem tab_session_init_spec_witness :
    (1 : Int) ≤ ((40 / 10 : Nat) : Int) ∧
    (1 : Int) ≤ ((30 / 10 : Nat) : Int) - 1 ∧
    ((tab_session_init 40 30 10 10 true).1 = 0 ∧
      (tab_session_init 40 30 10 10 true).2.num_panes = 1 ∧
      (tab_session_init 40 30 10 10 true).2.active_pane = 0 ∧
      (tab_session_init 40 30 10 10 true).2.active = true ∧
      (tab_session_init 40 30 10 10 true).2.pane0.term_cols = 40 / 10 ∧
      (tab_session_init 40 30 10 10 true).2.pane0.start_col = 0 ∧
      (tab_session_init 40 30 10 10 true).2.pane0.masterOpen = true ∧
      (tab_session_init 40 30 10 10 true).2.pane1.masterOpen = false ∧
      (tab_session_init 40 30 10 10 true).2.term_rows = 30 / 10 - 1 ∧
      (tab_session_init 40 30 10 10 true).2.term_rows * 10 ≤ 30 - 10) :=
  ⟨by decide, by decide,
    (tab_session_init_spec 40 30 10 10 true).2 (by decide) (by decide) rfl⟩

/- -- Application context and IPC command handling ----------------- -/

/-- The display / font metrics the session code reads from
`HardwareState` (`drm.width`, `drm.height`, `font.cell_w`, `font.cell_h`). -/
structure HwMetrics where
  width : Nat
  height : Nat
  cell_w : Nat
  cell_h : Nat
  deriving Repr, DecidableEq

/-- Model of the mutable application context `g_app`: the fixed tab
array, the active tab index and the tab count. -/
structure AppCtx where
  tabs : List TabSession
  active_tab : Nat
  num_tabs : Nat
  deriving Repr, DecidableEq

/-- `ipc_handle_command(cmd)`: dispatch one normalised command token
against the application state.  `ok` is the spawn oracle threaded to
`tab_session_init` / `split_pane_vertical`.  Returns the new state and
the C return value (1 for a known command, 0 for an unknown one). -/
def ipc_handle_command (hw : HwMetrics) (ok : Bool) (ctx : AppCtx)
    (cmd : String) : AppCtx × Int :=
  if cmd = "--new-tab" then
    (if ctx.num_tabs < MAX_TABS then
      let idx := ctx.num_tabs
      let r := tab_session_init hw.width hw.height hw.cell_w hw.cell_h ok
      if r.1 = 0 then
        { tabs := ctx.tabs.set idx r.2, active_tab := idx,
          num_tabs := ctx.num_tabs + 1 }
      else { ctx with tabs := ctx.tabs.set idx r.2 }
    else ctx, 1)
  else if cmd = "--next" then
    (if ctx.num_tabs > 0 then
      { ctx with active_tab := (ctx.active_tab + 1) % ctx.num_tabs }
    else ctx, 1)
  else if cmd = "--prev" then
    (if ctx.num_tabs > 0 then
      { ctx with active_tab := (ctx.active_tab + ctx.num_tabs - 1) % ctx.num_tabs }
    else ctx, 1)
  else if cmd = "--split-v" then
    (let tab := ctx.tabs.getD ctx.active_tab zeroTab
    if tab.active then
      { ctx with tabs :=
          ctx.tabs.set ctx.active_tab (split_pane_vertical tab hw.cell_w ok).2 }
    else ctx, 1)
  else if cmd = "--left" then
    (let tab := ctx.tabs.getD ctx.active_tab zeroTab
    if tab.active ∧ tab.num_panes = 2 then
      { ctx with tabs :=
          ctx.tabs.set ctx.active_tab { tab with active_pane := 0 } }
    else ctx, 1)
  else if cmd = "--right" then
    (let tab := ctx.tabs.getD ctx.active_tab zeroTab
    if tab.active ∧ tab.num_panes = 2 then
      { ctx with tabs :=
          ctx.tabs.set ctx.active_tab { tab with active_pane := 1 } }
    else ctx, 1)
  else (ctx, 0)

/-- C7: with `n = num_tabs > 0`, handling `--next` sets
`active_tab := (active_tab + 1) % n` and handling `--prev` sets
`active_tab := (active_tab - 1 + n) % n`, changing nothing else;
consequently `--next` then `--prev` restores the original active tab,
`--next` from tab `n-1` wraps to 0, and `--prev` from tab 0 wraps to
`n-1`. -/
theorem tab_cycling_spec (hw : HwMetrics) (ok : Bool) (ctx : AppCtx)
    (hn : 0 < ctx.num_tabs) :
    ipc_handle_command hw ok ctx "--next"
      = ({ ctx with active_tab := (ctx.active_tab + 1) % ctx.num_tabs }, 1) ∧
    ipc_handle_command hw ok ctx "--prev"
      = ({ ctx with
            active_tab := (ctx.active_tab + ctx.num_tabs - 1) % ctx.num_tabs },
          1) ∧
    (ctx.active_tab < ctx.num_tabs →
      (ipc_handle_command hw ok
          (ipc_handle_command hw ok ctx "--next").1 "--prev").1 = ctx) ∧
    (ctx.active_tab = ctx.num_tabs - 1 →
      (ipc_handle_command hw ok ctx "--next").1.active_tab = 0) ∧
    (ctx.active_tab = 0 →
      (ipc_handle_command hw ok ctx "--prev").1.active_tab
        = ctx.num_tabs - 1) := by
  have hnext : ipc_handle_command hw ok ctx "--next"
      = ({ ctx with active_tab := (ctx.active_tab + 1) % ctx.num_tabs }, 1) := by
    simp [ipc_handle_command, hn]
  have hprev : ∀ c : AppCtx, c.num_tabs = ctx.num_tabs →
      ipc_handle_command hw ok c "--prev"
        = ({ c with active_tab := (c.active_tab + c.num_tabs - 1) % c.num_tabs },
            1) := by
    intro c hc
    simp [ipc_handle_command]
    omega
  refine ⟨hnext, hprev ctx rfl, ?_, ?_, ?_⟩
  · intro hlt
    rw [hnext]
    rw [hprev { ctx with active_tab := (ctx.active_tab + 1) % ctx.num_tabs } rfl]
    simp only []
    have hm : ((ctx.active_tab + 1) % ctx.num_tabs + ctx.num_tabs - 1)
        % ctx.num_tabs = ctx.active_tab := by
      have h1 : ((ctx.active_tab + 1) % ctx.num_tabs + ctx.num_tabs - 1)
          = ((ctx.active_tab + 1) % ctx.num_tabs + (ctx.num_tabs - 1)) := by
        omega
      rw [h1, Nat.mod_add_mod]
      have h2 : ctx.active_tab + 1 + (ctx.num_tabs - 1)
          = ctx.active_tab + ctx.num_tabs := by omega
      rw [h2, Nat.add_mod_right, Nat.mod_eq_of_lt hlt]
    rw [hm]
  · intro hlast
    rw [hnext]
    simp only []
    rw [hlast]
    have : ctx.num_tabs - 1 + 1 = ctx.num_tabs := by omega
    rw [this, Nat.mod_self]
  · intro hzero
    rw [hprev ctx rfl]
    simp only []
    rw [hzero]
    have h1 : 0 + ctx.num_tabs - 1 = ctx.num_tabs - 1 := by omega
    rw [h1, Nat.mod_eq_of_lt (by omega)]

/-- Witness for `tab_cycling_spec`: two tabs, active tab 1. -/
theorem tab_cycling_spec_witness :
    0 < (⟨[zeroTab, zeroTab], 1, 2⟩ : AppCtx).num_tabs ∧
    (ipc_handle_command ⟨40, 30, 10, 10⟩ true ⟨[zeroTab, zeroTab], 1, 2⟩ "--next"
        = (⟨[zeroTab, zeroTab], 0, 2⟩, 1) ∧
      ipc_handle_command ⟨40, 30, 10, 10⟩ true ⟨[zeroTab, zeroTab], 1, 2⟩ "--prev"
        = (⟨[zeroTab, zeroTab], 0, 2⟩, 1) ∧
      ((⟨[zeroTab, zeroTab], 1, 2⟩ : AppCtx).active_tab < 2 →
        (ipc_handle_command ⟨40, 30, 10, 10⟩ true
            (ipc_handle_command ⟨40, 30, 10, 10⟩ true ⟨[zeroTab, zeroTab], 1, 2⟩
              "--next").1 "--prev").1 = ⟨[zeroTab, zeroTab], 1, 2⟩)) := by
  have h := tab_cycling_spec ⟨40, 30, 10, 10⟩ true ⟨[zeroTab, zeroTab], 1, 2⟩
    (by decide)
  exact ⟨by decide, by simpa using h.1, by simpa using h.2.1, fun _ => h.2.2.1 (by decide)⟩

/-- C8: a `--new-tab` command arriving when `num_tabs` already equals
`MAX_TABS = 8` mutates nothing: the whole application context (tab count,
active tab, every tab slot) is returned unchanged. -/
theorem new_tab_at_max_spec (hw : HwMetrics) (ok : Bool) (ctx : AppCtx)
    (hfull : ctx.num_tabs = MAX_TABS) :
    ipc_handle_command hw ok ctx "--new-tab" = (ctx, 1) := by
  have : ¬ ctx.num_tabs < MAX_TABS := by omega
  simp [ipc_handle_command, this]

/-- Witness for `new_tab_at_max_spec` at a full 8-tab context. -/
theorem new_tab_at_max_spec_witness :
    (⟨List.replicate 8 zeroTab, 0, 8⟩ : AppCtx).num_tabs = MAX_TABS ∧
    ipc_handle_command ⟨40, 30, 10, 10⟩ true
        ⟨List.replicate 8 zeroTab, 0, 8⟩ "--new-tab"
      = (⟨List.replicate 8 zeroTab, 0, 8⟩, 1) :=
  ⟨by decide, new_tab_at_max_spec ⟨40, 30, 10, 10⟩ true
    ⟨List.replicate 8 zeroTab, 0, 8⟩ (by decide)⟩

/-- `tab` with only `active_pane` replaced by `p` (every other field kept). -/
def with_active_pane (t : TabSession) (p : Nat) : TabSession :=
  { t with active_pane := p }

/-- `ctx` with only tab slot `i` replaced by `t` (every other field kept). -/
def set_tab (ctx : AppCtx) (i : Nat) (t : TabSession) : AppCtx :=
  { ctx with tabs := ctx.tabs.set i t }

/-- C9: a focus command changes only the active pane index: when the
active tab is active and has exactly two panes, `--left` sets its
`active_pane` to 0 and `--right` sets it to 1 and nothing else changes;
in every other configuration both commands leave the whole state
unchanged. -/
theorem focus_spec (hw : HwMetrics) (ok : Bool) (ctx : AppCtx) :
    ((ctx.tabs.getD ctx.active_tab zeroTab).active ∧
        (ctx.tabs.getD ctx.active_tab zeroTab).num_panes = 2 →
      ipc_handle_command hw ok ctx "--left"
        = (set_tab ctx ctx.active_tab
            (with_active_pane (ctx.tabs.getD ctx.active_tab zeroTab) 0), 1) ∧
      ipc_handle_command hw ok ctx "--right"
        = (set_tab ctx ctx.active_tab
            (with_active_pane (ctx.tabs.getD ctx.active_tab zeroTab) 1), 1)) ∧
    (¬ ((ctx.tabs.getD ctx.active_tab zeroTab).active ∧
        (ctx.tabs.getD ctx.active_tab zeroTab).num_panes = 2) →
      ipc_handle_command hw ok ctx "--left" = (ctx, 1) ∧
      ipc_handle_command hw ok ctx "--right" = (ctx, 1)) := by
  constructor
  · intro hcond
    obtain ⟨h1, h2⟩ := hcond
    rw [List.getD_eq_getElem?_getD] at h1 h2
    constructor <;>
      simp [ipc_handle_command, with_active_pane, set_tab, h1, h2]
  · intro hcond
    rw [List.getD_eq_getElem?_getD] at hcond
    constructor <;> simp [ipc_handle_command, hcond]

/-- Witness for `focus_spec` on a two-pane active tab. -/
theorem focus_spec_witness :
    (((⟨[⟨zeroPane, zeroPane, 2, 1, 5, true⟩], 0, 1⟩ : AppCtx).tabs.getD 0
          zeroTab).active ∧
      ((⟨[⟨zeroPane, zeroPane, 2, 1, 5, true⟩], 0, 1⟩ : AppCtx).tabs.getD 0
          zeroTab).num_panes = 2) ∧
    ipc_handle_command ⟨40, 30, 10, 10⟩ true
        ⟨[⟨zeroPane, zeroPane, 2, 1, 5, true⟩], 0, 1⟩ "--left"
      = (⟨[⟨zeroPane, zeroPane, 2, 0, 5, true⟩], 0, 1⟩, 1) := by
  have h := (focus_spec ⟨40, 30, 10, 10⟩ true
    ⟨[⟨zeroPane, zeroPane, 2, 1, 5, true⟩], 0, 1⟩).1 (by decide)
  exact ⟨by decide, by simpa using h.1⟩

/- -- Renderer cursor discipline ----------------------------------- -/

/-- One render pass of `render_screen` over pane `p` of a tab: the list
of `(row, col, is_cursor)` triples passed to `render_cell_bg` /
`render_cell_fg`.  The cursor flag is the source expression
`is_active_pane && r == cursor_pos.row && c == cursor_pos.col`; a pane
whose emulator is gone (`!pane->vt`) is skipped. -/
def pane_pass_calls (tab : TabSession) (p : Nat) : List (Nat × Nat × Bool) :=
  let pane := paneAt tab p
  if ¬ pane.vtAlive then []
  else
    (List.range tab.term_rows).flatMap fun r =>
      (List.range pane.term_cols).map fun (c : Nat) =>
        (r, c, (p == tab.active_pane) && (r == pane.cursor_row)
          && (c == pane.cursor_col))

/-- The cell-render calls of one `render_screen` frame on a tab: for each
pane in `[0, num_panes)`, the background pass then the foreground pass.
Entries are `(is_fg_pass, pane, row, col, is_cursor)`. -/
def render_screen_calls (tab : TabSession) : List (Bool × Nat × Nat × Nat × Bool) :=
  (List.range tab.num_panes).flatMap fun p =>
    ((pane_pass_calls tab p).map fun e => (false, p, e.1, e.2.1, e.2.2)) ++
    ((pane_pass_calls tab p).map fun e => (true, p, e.1, e.2.1, e.2.2))

/-- The cell-render calls of one frame of the application: the event loop
renders only the active tab (`render_screen(&g_app.hw,
&g_app.tabs[g_app.active_tab], ...)`). -/
def frame_cursor_calls (ctx : AppCtx) : List (Bool × Nat × Nat × Nat × Bool) :=
  render_screen_calls (ctx.tabs.getD ctx.active_tab zeroTab)

theorem render_screen_calls_cursor {tab : TabSession}
    {pass : Bool} {p r c : Nat}
    (h : (pass, p, r, c, true) ∈ render_screen_calls tab) :
    p = tab.active_pane ∧ r = (paneAt tab tab.active_pane).cursor_row ∧
      c = (paneAt tab tab.active_pane).cursor_col := by
  simp only [render_screen_calls, pane_pass_calls, List.mem_flatMap,
    List.mem_range, List.mem_append, List.mem_map, List.mem_ite_nil_left,
    Prod.mk.injEq] at h
  obtain ⟨q, _, h⟩ := h
  have key : q = p ∧ ∃ r2, r2 < tab.term_rows ∧
      ∃ c2, c2 < (paneAt tab q).term_cols ∧ r2 = r ∧ c2 = c ∧
      ((q == tab.active_pane) && (r2 == (paneAt tab q).cursor_row) &&
        (c2 == (paneAt tab q).cursor_col)) = true := by
    rcases h with ⟨e, ⟨_, he⟩, _, hqp, hre, hce, hfl⟩ |
      ⟨e, ⟨_, he⟩, _, hqp, hre, hce, hfl⟩ <;>
    · obtain ⟨r2, hr2, c2, hc2, hec⟩ := he
      refine ⟨hqp, r2, hr2, c2, hc2, ?_, ?_, ?_⟩
      · rw [← hre, ← hec]
      · rw [← hce, ← hec]
      · rw [← hfl, ← hec]
  obtain ⟨hqp, r2, _, c2, _, hr2r, hc2c, hfl⟩ := key
  subst hqp hr2r hc2c
  simp only [Bool.and_eq_true, beq_iff_eq] at hfl
  obtain ⟨⟨hpa, hrr⟩, hcc⟩ := hfl
  subst hpa
  exact ⟨rfl, hrr, hcc⟩

/-- C5: in every rendered frame the cursor override is applied to at most
one cell, and that cell is the cursor position of the active pane of the
active tab: every cell-render call carrying `is_cursor = true`, in either
pass, addresses the active pane of the active tab at that pane's cursor
position, and any two cursor-flagged calls address the same cell. -/
theorem cursor_at_most_one_cell (ctx : AppCtx) :
    (∀ pass p r c, (pass, p, r, c, true) ∈ frame_cursor_calls ctx →
      p = (ctx.tabs.getD ctx.active_tab zeroTab).active_pane ∧
      r = (paneAt (ctx.tabs.getD ctx.active_tab zeroTab)
            (ctx.tabs.getD ctx.active_tab zeroTab).active_pane).cursor_row ∧
      c = (paneAt (ctx.tabs.getD ctx.active_tab zeroTab)
            (ctx.tabs.getD ctx.active_tab zeroTab).active_pane).cursor_col) ∧
    (∀ pass p r c pass2 p2 r2 c2,
      (pass, p, r, c, true) ∈ frame_cursor_calls ctx →
      (pass2, p2, r2, c2, true) ∈ frame_cursor_calls ctx →
      p = p2 ∧ r = r2 ∧ c = c2) := by
  constructor
  · intro pass p r c h
    exact render_screen_calls_cursor h
  · intro pass p r c pass2 p2 r2 c2 h h2
    obtain ⟨a1, a2, a3⟩ := render_screen_calls_cursor h
    obtain ⟨b1, b2, b3⟩ := render_screen_calls_cursor h2
    exact ⟨a1.trans b1.symm, a2.trans b2.symm, a3.trans b3.symm⟩

/-- Witness for `cursor_at_most_one_cell`: a 2×2 single-pane tab with the
cursor at `(1, 0)`; the flagged call addresses pane 0, cell `(1, 0)`. -/
theorem cursor_at_most_one_cell_witness :
    (false, 0, 1, 0, true)
      ∈ frame_cursor_calls
        ⟨[⟨⟨true, 2, 0, true, 2, 2, 1, 0, [], []⟩, zeroPane, 1, 0, 2, true⟩], 0, 1⟩ ∧
    (0 = ((⟨[⟨⟨true, 2, 0, true, 2, 2, 1, 0, [], []⟩, zeroPane, 1, 0, 2, true⟩],
          0, 1⟩ : AppCtx).tabs.getD 0 zeroTab).active_pane ∧
      1 = (paneAt ((⟨[⟨⟨true, 2, 0, true, 2, 2, 1, 0, [], []⟩, zeroPane, 1, 0, 2,
            true⟩], 0, 1⟩ : AppCtx).tabs.getD 0 zeroTab) 0).cursor_row ∧
      0 = (paneAt ((⟨[⟨⟨true, 2, 0, true, 2, 2, 1, 0, [], []⟩, zeroPane, 1, 0, 2,
            true⟩], 0, 1⟩ : AppCtx).tabs.getD 0 zeroTab) 0).cursor_col) := by
  constructor
  · decide
  · exact (cursor_at_most_one_cell
      ⟨[⟨⟨true, 2, 0, true, 2, 2, 1, 0, [], []⟩, zeroPane, 1, 0, 2, true⟩], 0, 1⟩).1
      false 0 1 0 (by decide)

/- -- Event loop --------------------------------------------------- -/

/-- What one wake of the poll loop observes: for each pty slot `(i, p)`,
`none` if the master was not readable, or `some (bytes, sawEof)` for the
bytes drained from it and whether the drain ended in EOF/`EIO`; the bytes
readable on the controlling terminal; and an optional command token
accepted on the control socket. -/
structure WakeEv where
  paneRead : Nat → Nat → Option (List Nat × Bool)
  stdin_bytes : List Nat
  ipc_cmd : Option String

/-- `any_pane_alive` from the pane-exit path of `main`: some pane of the
tab still has an open master. -/
def any_pane_alive (tab : TabSession) : Bool :=
  (List.range tab.num_panes).any fun q => (paneAt tab q).masterOpen

/-- `any_tab_active` from the pane-exit path of `main`. -/
def any_tab_active (ctx : AppCtx) : Bool :=
  (List.range ctx.num_tabs).any fun j => (ctx.tabs.getD j zeroTab).active

/-- The first active tab index, as selected when the active tab dies. -/
def first_active_tab (ctx : AppCtx) : Nat :=
  (((List.range ctx.num_tabs).find? fun j =>
    (ctx.tabs.getD j zeroTab).active).getD ctx.active_tab)

/-- Handling of one pty slot `(i, p)` in the drain loop of `main`,
threading `(ctx, need_render, shutdown)`: skip inactive tabs, skip slots
at or beyond `num_panes` and closed masters (their pollfd was registered
as `fd = -1`); otherwise feed the drained bytes to the pane's emulator
(setting `need_render` when the tab is the active one), and on EOF close
the master, deactivate the tab when no pane is left alive, request
shutdown when no tab is left active, and re-point `active_tab` at the
first remaining active tab when the dead tab was the active one. -/
def drain_slot (ev : WakeEv) (st : AppCtx × Bool × Bool) (i p : Nat) :
    AppCtx × Bool × Bool :=
  let (ctx, nr, sd) := st
  let tab := ctx.tabs.getD i zeroTab
  if ¬ tab.active then st
  else if ¬ (p < tab.num_panes) then st
  else
    let pane := paneAt tab p
    if ¬ pane.masterOpen then st
    else
      match ev.paneRead i p with
      | none => st
      | some (bytes, sawEof) =>
        let pane1 := { pane with fed := pane.fed ++ bytes }
        let nr1 := nr || (!bytes.isEmpty && (i == ctx.active_tab))
        if sawEof then
          let tab1 := setPane tab p { pane1 with masterOpen := false }
          if any_pane_alive tab1 then (set_tab ctx i tab1, true, sd)
          else
            let ctx2 := set_tab ctx i { tab1 with active := false }
            if ¬ any_tab_active ctx2 then (ctx2, nr1, true)
            else if i = ctx2.active_tab then
              ({ ctx2 with active_tab := first_active_tab ctx2 }, true, sd)
            else (ctx2, true, sd)
        else (set_tab ctx i (setPane tab p pane1), nr1, sd)

/-- The body of one event-loop iteration after the poll wake has been
accepted (the `g_vt_active` gate passed): drain every registered pty
slot, stop if shutdown was requested, forward the controlling terminal's
bytes to the active pane of the active tab, dispatch at most one control
socket command, and report whether a frame is rendered
(`need_render && !g_shutdown` and the active tab still active). -/
def process_wake (hw : HwMetrics) (ok : Bool) (ctx : AppCtx) (ev : WakeEv) :
    AppCtx × Bool :=
  let slots := (List.range MAX_TABS).flatMap fun i =>
    (List.range MAX_PANES).map fun (p : Nat) => (i, p)
  let st := slots.foldl (fun s ip => drain_slot ev s ip.1 ip.2)
    (ctx, false, false)
  if st.2.2 then (st.1, false)
  else
    let ctx1 := st.1
    let ctx2 :=
      if ¬ ev.stdin_bytes.isEmpty then
        let tab := ctx1.tabs.getD ctx1.active_tab zeroTab
        if tab.active then
          let pane := paneAt tab tab.active_pane
          if pane.masterOpen then
            set_tab ctx1 ctx1.active_tab (setPane tab tab.active_pane
              { pane with written := pane.written ++ ev.stdin_bytes })
          else ctx1
        else ctx1
      else ctx1
    match ev.ipc_cmd with
    | none =>
        (ctx2, st.2.1 && (ctx2.tabs.getD ctx2.active_tab zeroTab).active)
    | some cmd =>
        let r := ipc_handle_command hw ok ctx2 cmd
        ((r.1), (st.2.1 || decide (r.2 = 1)) &&
          (r.1.tabs.getD r.1.active_tab zeroTab).active)

/-- One iteration of the main loop from the poll wake on: the first
statement after error handling is `if (!g_vt_active) continue;`, so when
the display-inactive flag is set the iteration does nothing at all;
otherwise the body `process_wake` runs.  Returns the application state
and whether a frame was rendered. -/
def loop_iteration (hw : HwMetrics) (ok : Bool) (ctx : AppCtx)
    (vt_active : Bool) (ev : WakeEv) : AppCtx × Bool :=
  if vt_active = false then (ctx, false)
  else process_wake hw ok ctx ev

/-- C10: whenever the event loop wakes while `g_vt_active == 0`, the
iteration mutates nothing — no pane is drained, no stdin byte forwarded,
no command accepted — and no frame is rendered: the iteration is the
identity on the application state with the render flag false, for every
possible set of pending events. -/
theorem vt_inactive_skips_iteration (hw : HwMetrics) (ok : Bool)
    (ctx : AppCtx) (ev : WakeEv) :
    loop_iteration hw ok ctx false ev = (ctx, false) := rfl

end KittyTty
